import Mathlib

/-!
Verification of the `cog-layers` reader against its specification.

The development shallowly embeds the three source modules
(`cog_layers/reader/types.py`, `cog_layers/reader/io.py`,
`cog_layers/reader/tiler.py`) together with the parts of the `mercantile`
library they call.  The module `cog_layers/reader/cog.py` (functions
`read_tile` and `read_row`) is not among the provided sources; the
definitions embedding it are modelled from the specification and are
marked as such in their doc comments.

Machine integers are modelled as `Nat`/`Int` (Python integers are
unbounded, so no wrap-around is involved), byte payloads as `List Nat`,
and fallible code as `Except Err`.  `asyncio.gather` is modelled as a
sequencing combinator that preserves the order of its argument list and
propagates the first failure, matching the documented behaviour of
`gather` without `return_exceptions`.  The iteration order of a Python
`set` is not fixed by the language, so `list(set(ys))` is modelled by an
explicit order parameter constrained to produce a duplicate-free list
with the same membership.
-/

/-- Raw byte payloads returned by range requests (one `Nat` per byte or,
in test fixtures, any distinguishing value). -/
abbrev Bytes := List Nat

/-- Errors of the engine.  `indexError`, `keyError` and `valueError` model
the Python exceptions of the same names; `quadKeyError` models
`mercantile.QuadKeyError`; the remaining constructors model the error
taxonomy from the specification (the embedded code itself never produces
`zoomOutOfRange`, mirroring the absence of any such check in the source). -/
inductive Err where
  | indexError
  | keyError
  | valueError
  | quadKeyError
  | tileOutOfBounds
  | zoomOutOfRange
  | unsupportedTagType
  | rangeUnavailable
deriving DecidableEq, Repr

instance {α : Type} [DecidableEq α] : DecidableEq (Except Err α) := fun a b =>
  match a, b with
  | .ok x, .ok y => if h : x = y then .isTrue (by rw [h]) else .isFalse (by simp [h])
  | .error e, .error f => if h : e = f then .isTrue (by rw [h]) else .isFalse (by simp [h])
  | .ok _, .error _ => .isFalse (by simp)
  | .error _, .ok _ => .isFalse (by simp)

/-- Whether an `Except` computation succeeded. -/
def exceptIsOk {α : Type} : Except Err α → Bool
  | .ok _ => true
  | .error _ => false

/-- `Endian` from `types.py`: endianness of the TIFF file. -/
inductive Endian where
  | big
  | little
deriving DecidableEq, Repr

/-- `TiffVersion` from `types.py` (42 = TIFF, 43 = BigTIFF). -/
inductive TiffVersion where
  | tiff
  | bigtiff
deriving DecidableEq, Repr

/-- The numeric value of a `TiffVersion`, as in the `IntEnum` of `types.py`. -/
def TiffVersion.value : TiffVersion → Nat
  | .tiff => 42
  | .bigtiff => 43

/-- `Header` from `types.py`: byte order, TIFF version, offset to first IFD. -/
structure Header where
  endian : Endian
  version : TiffVersion
  first_ifd_offset : Nat
deriving DecidableEq, Repr

/-- `TagType` from `types.py`: a tag data type with struct format character,
byte length and TIFF encoding. -/
structure TagType where
  format : String
  length : Nat
  value : Nat
deriving DecidableEq, Repr

/-- `_TAG_TYPES` from `types.py`: the fixed association of supported TIFF
field-type ids to their `TagType` descriptors, embedded as an association
list (a Python `dict` with these literal entries). -/
def _TAG_TYPES : List (Nat × TagType) :=
  [(1, ⟨"B", 1, 1⟩),
   (2, ⟨"c", 1, 2⟩),
   (3, ⟨"H", 2, 3⟩),
   (4, ⟨"L", 4, 4⟩),
   (5, ⟨"f", 4, 5⟩),
   (7, ⟨"B", 1, 7⟩),
   (12, ⟨"d", 8, 12⟩),
   (16, ⟨"Q", 8, 16⟩)]

/-- Modelled from the spec: the lookup operation `descriptor_for` of the tag
type registry (spec 4.1) is not a named function in the provided sources;
its consumers live in `cog_layers/reader/cog.py`, which is not provided.
A Python `dict` subscript of `_TAG_TYPES` with an unknown id raises
`KeyError`; the spec names this failure `UnsupportedTagType`. -/
def descriptor_for (id : Nat) : Except Err TagType :=
  match _TAG_TYPES.lookup id with
  | some t => .ok t
  | none => .error .unsupportedTagType

/-- A decoded tag value as consumed by the tile resolution engine: scalar
integer tags (dimensions) or integer-array tags (offsets / byte counts). -/
inductive TagValue where
  | scalar (n : Nat)
  | array (ns : List Nat)
deriving DecidableEq, Repr

/-- `IFD` from `types.py`: tag count, offset of the next IFD, and the tags
keyed by name (the `Dict[str, Any]` of the source, restricted to the
decoded integer shapes the engine consumes). -/
structure IFD where
  tag_count : Nat
  next_ifd_offset : Nat
  tags : List (String × TagValue)
deriving DecidableEq, Repr

/-- `Cog` from `types.py`: bucket, key, header and the ordered IFD list.
The bound range-request capability `_send_range_request` is modelled as a
function from a byte range to the fetched bytes (bucket and key are fixed
per `Cog`, so they are dropped from the capability's arguments). -/
structure Cog where
  bucket : String
  key : String
  header : Header
  ifds : List IFD
  send_range : Nat → Nat → Except Err Bytes

/-- `mercantile.Tile`: a web-mercator pyramid tile. -/
structure Tile where
  x : Int
  y : Int
  z : Nat
deriving DecidableEq, Repr

/-- `mercantile.quadkey_to_tile`: decode a base-4 quadkey string.  The
source iterates the reversed string setting bit `i` of `x`/`y` from digit
`i`; folding left-to-right while doubling accumulates the same bits.  An
empty quadkey decodes to `Tile(0, 0, 0)`; a digit outside `0123` raises
`QuadKeyError`. -/
def quadkeyToTile (qk : String) : Option Tile :=
  (qk.data.foldl
    (fun acc c =>
      acc.bind (fun xy =>
        if c = '0' then some (2 * xy.1, 2 * xy.2)
        else if c = '1' then some (2 * xy.1 + 1, 2 * xy.2)
        else if c = '2' then some (2 * xy.1, 2 * xy.2 + 1)
        else if c = '3' then some (2 * xy.1 + 1, 2 * xy.2 + 1)
        else none))
    (some ((0 : Int), (0 : Int)))).map
    (fun xy => ⟨xy.1, xy.2, qk.length⟩)

/-- Exact-arithmetic semantics of `mercantile.tile(*mercantile.ul(parent), z)`
as used in `tiler.py`: the tile at zoom `z` whose extent contains the
upper-left corner of `parent`.  For `parent.z ≤ z` this is the upper-left
descendant (coordinates scaled by `2 ^ (z - parent.z)`); otherwise the
ancestor (floor-divided coordinates).  The floating-point round trip
through longitude/latitude that `mercantile` performs is modelled by its
exact real value. -/
def originTile (parent : Tile) (z : Nat) : Tile :=
  if parent.z ≤ z then
    ⟨parent.x * (2 : Int) ^ (z - parent.z), parent.y * (2 : Int) ^ (z - parent.z), z⟩
  else
    ⟨Int.fdiv parent.x ((2 : Int) ^ (parent.z - z)), Int.fdiv parent.y ((2 : Int) ^ (parent.z - z)), z⟩

/-- `mercantile.children(t, zoom)` for `zoom ≥ t.z`: all descendant tiles of
`t` at zoom `zoom`, here enumerated row-major.  `mercantile` produces them
in breadth-first order; `tiler.py` only takes the minimum, maximum and set
of the derived offsets, none of which depend on the enumeration order.
(`mercantile` raises `InvalidZoomError` for `zoom < t.z`; `tiler.py` only
calls this with `zoom = t.z + log2(size) ≥ t.z`.) -/
def childrenAt (t : Tile) (zoom : Nat) : List Tile :=
  (List.range (2 ^ (zoom - t.z))).flatMap
    (fun (j : Nat) => (List.range (2 ^ (zoom - t.z))).map
      (fun (i : Nat) => ⟨t.x * (2 : Int) ^ (zoom - t.z) + (i : Int),
                         t.y * (2 : Int) ^ (zoom - t.z) + (j : Int), zoom⟩))

/-- Python `s.split("/")` for the single-character separator used in
`tiler.py`, via the structurally recursive list splitter. -/
def pySplit (s : String) (sep : Char) : List String :=
  (s.data.splitOn sep).map List.asString

/-- Python `l[-2]`: the second-to-last element; raises `IndexError`
(here: `none`) when the list has fewer than two elements. -/
def pySecondToLast {α : Type} (l : List α) : Option α :=
  if h : 2 ≤ l.length then some (l.get ⟨l.length - 2, by omega⟩) else none

/-- Python `l[i]` for a possibly negative index: a negative index counts
from the end; out-of-range indices raise `IndexError` (here: `none`). -/
def pyListGet {α : Type} (l : List α) (i : Int) : Option α :=
  if 0 ≤ i then l[i.toNat]?
  else if 0 ≤ i + l.length then l[(i + l.length).toNat]?
  else none

/-- `int(math.log(size, 2))` for the sizes the spec admits: on a power of
two the float logarithm is exact and truncation returns the exponent.
Implemented with structural fuel so that it evaluates by `rfl`. -/
def intLog2Aux : Nat → Nat → Nat
  | 0, _ => 0
  | fuel + 1, n => if n < 2 then 0 else intLog2Aux fuel (n / 2) + 1

/-- See `intLog2Aux`. -/
def intLog2 (n : Nat) : Nat := intLog2Aux n n

/-- Python `min` over a non-empty list (the empty case, which raises
`ValueError` in Python, is unreachable in `tiler.py` and returns 0). -/
def pyMin : List Int → Int
  | [] => 0
  | a :: r => r.foldl min a

/-- Python `max` over a non-empty list (empty case as in `pyMin`). -/
def pyMax : List Int → Int
  | [] => 0
  | a :: r => r.foldl max a

/-- `asyncio.gather` over already-modelled `Except` computations: succeeds
with the results in argument order, fails as soon as any argument failed
(no partial result list is ever produced). -/
def gatherExcept {α : Type} : List (Except Err α) → Except Err (List α)
  | [] => .ok []
  | x :: r =>
    match x with
    | .error e => .error e
    | .ok a =>
      match gatherExcept r with
      | .error e => .error e
      | .ok as => .ok (a :: as)

/-- Look up a scalar integer tag of an IFD by name (a missing key raises
`KeyError` in Python). -/
def getScalarTag (ifd : IFD) (name : String) : Except Err Nat :=
  match ifd.tags.lookup name with
  | some (.scalar n) => .ok n
  | _ => .error .keyError

/-- Look up an integer-array tag of an IFD by name. -/
def getArrayTag (ifd : IFD) (name : String) : Except Err (List Nat) :=
  match ifd.tags.lookup name with
  | some (.array ns) => .ok ns
  | _ => .error .keyError

/-- Ceiling division on `Nat`, used to derive the tile-grid dimensions of
an overview from its image and tile sizes. -/
def ceilDiv (n d : Nat) : Nat := (n + d - 1) / d

/-- Modelled from the spec: the offset-lookup-and-fetch part of
`read_tile` / `read_row` from `cog_layers/reader/cog.py`, which is not
among the provided sources.  Per spec 4.4/4.5: select the IFD at
`overview` (Python list indexing), compute the linear tile index
`idx = yoff * tiles_per_row + xoff`, read `TileOffsets[idx]` and
`TileByteCounts[idx]`, return an empty payload for a zero byte count
without fetching, and otherwise fetch `[offset, offset + byte_count)`. -/
def readTileCore (xoff yoff : Int) (overview : Int) (cog : Cog) : Except Err Bytes :=
  match pyListGet cog.ifds overview with
  | none => .error .indexError
  | some ifd =>
    match getScalarTag ifd "ImageWidth", getScalarTag ifd "TileWidth",
          getArrayTag ifd "TileOffsets", getArrayTag ifd "TileByteCounts" with
    | .ok iw, .ok tw, .ok offs, .ok cnts =>
      if tw = 0 then .error .valueError
      else
        match pyListGet offs (yoff * (ceilDiv iw tw : Int) + xoff),
              pyListGet cnts (yoff * (ceilDiv iw tw : Int) + xoff) with
        | some off, some cnt =>
          if cnt = 0 then .ok [] else cog.send_range off (off + cnt)
        | _, _ => .error .indexError
    | .error e, _, _, _ => .error e
    | _, .error e, _, _ => .error e
    | _, _, .error e, _ => .error e
    | _, _, _, .error e => .error e

/-- Modelled from the spec: `read_tile(xoff, yoff, overview_level, cog)`
from `cog_layers/reader/cog.py`, which is not among the provided sources.
Per spec 4.4 it fails with `TileOutOfBounds` if `xoff`/`yoff` fall outside
the overview's tile grid, derived from the `ImageWidth`/`ImageHeight`/
`TileWidth`/`TileHeight` tags of that IFD, and otherwise looks up and
fetches the tile's byte range (`readTileCore`). -/
def read_tile (xoff yoff : Int) (overview : Int) (cog : Cog) : Except Err Bytes :=
  match pyListGet cog.ifds overview with
  | none => .error .indexError
  | some ifd =>
    match getScalarTag ifd "ImageWidth", getScalarTag ifd "ImageHeight",
          getScalarTag ifd "TileWidth", getScalarTag ifd "TileHeight" with
    | .ok iw, .ok ih, .ok tw, .ok th =>
      if tw = 0 ∨ th = 0 then .error .valueError
      else if xoff < 0 ∨ yoff < 0 ∨ (ceilDiv iw tw : Int) ≤ xoff ∨ (ceilDiv ih th : Int) ≤ yoff then
        .error .tileOutOfBounds
      else readTileCore xoff yoff overview cog
    | .error e, _, _, _ => .error e
    | _, .error e, _, _ => .error e
    | _, _, .error e, _ => .error e
    | _, _, _, .error e => .error e

/-- Modelled from the spec: `read_row(y, overview_level, cog, xmin, xmax)`
from `cog_layers/reader/cog.py`, which is not among the provided sources.
Per spec 4.5 it fetches the tiles of row `y` for the columns
`xmin .. xmax` inclusive (one fetch per tile, concurrently), returning
their payloads in ascending column order. -/
def read_row (y : Int) (overview : Int) (cog : Cog) (xmin xmax : Int) : Except Err (List Bytes) :=
  gatherExcept ((List.range ((xmax - xmin).toNat + 1)).map
    (fun (i : Nat) => readTileCore (xmin + (i : Int)) y overview cog))

/-- The overview resolution inlined in `request_xyz_tile`
(`tiler.py` lines 11-14): take the quadkey from the second-to-last path
segment of the key, decode it to `parent_tile`, and return
`overview_level = parent_tile.z + len(cog.ifds) - z - 1` together with
the origin tile at zoom `z`.  No range check is performed on the
resulting overview level. -/
def resolveXyz (cog : Cog) (z : Nat) : Except Err (Int × Tile) :=
  match pySecondToLast (pySplit cog.key '/') with
  | none => .error .indexError
  | some qk =>
    match quadkeyToTile qk with
    | none => .error .quadKeyError
    | some parent =>
      .ok ((parent.z : Int) + (cog.ifds.length : Int) - (z : Int) - 1, originTile parent z)

/-- `request_xyz_tile` from `tiler.py`: resolve the overview level and
origin, derive the intra-overview offsets, and read the tile. -/
def request_xyz_tile (cog : Cog) (tile : Tile) : Except Err Bytes :=
  match resolveXyz cog tile.z with
  | .error e => .error e
  | .ok (overview, origin) =>
    read_tile (tile.x - origin.x) (tile.y - origin.y) overview cog

/-- The pure planning part of `request_metatile` (`tiler.py` lines 29-38):
quadkey extraction and decoding, `metatile_zoom = tile.z + log2(size)`,
origin at `metatile_zoom`, the children offsets' extrema and row offsets,
and the overview level `metatile_zoom - parent_tile.z - 1` exactly as in
the source.  The `isEmpty` guard models the `ValueError` that unpacking
`zip(*[])` would raise (unreachable: `childrenAt` is never empty). -/
def metatilePlan (cog : Cog) (tile : Tile) (size : Nat) : Except Err (Int × Int × Int × List Int) :=
  match pySecondToLast (pySplit cog.key '/') with
  | none => .error .indexError
  | some qk =>
    match quadkeyToTile qk with
    | none => .error .quadKeyError
    | some parent =>
      if (childrenAt tile (tile.z + intLog2 size)).isEmpty then .error .valueError
      else
        .ok (((tile.z + intLog2 size : Nat) : Int) - (parent.z : Int) - 1,
          pyMin ((childrenAt tile (tile.z + intLog2 size)).map
            (fun c => c.x - (originTile parent (tile.z + intLog2 size)).x)),
          pyMax ((childrenAt tile (tile.z + intLog2 size)).map
            (fun c => c.x - (originTile parent (tile.z + intLog2 size)).x)),
          (childrenAt tile (tile.z + intLog2 size)).map
            (fun c => c.y - (originTile parent (tile.z + intLog2 size)).y))

/-- A valid model of CPython's `list(set(-))` on integers: some
duplicate-free enumeration of the elements.  The language fixes no
particular order, so the order function is a parameter. -/
def validSetOrder (so : List Int → List Int) : Prop :=
  ∀ l : List Int, (so l).Nodup ∧ ∀ a : Int, a ∈ so l ↔ a ∈ l

/-- `request_metatile` from `tiler.py`, parameterised by the set-iteration
order `so` (see `validSetOrder`): plan the request, then gather one
`read_row` per distinct row offset, in the set's iteration order. -/
def request_metatile (so : List Int → List Int) (cog : Cog) (tile : Tile) (size : Nat) :
    Except Err (List (List Bytes)) :=
  match metatilePlan cog tile size with
  | .error e => .error e
  | .ok (overview, xmin, xmax, ys) =>
    gatherExcept ((so ys).map (fun y => read_row y overview cog xmin xmax))

/-- `obs.store.S3Store`: a store handle determined by its bucket and its
configuration options. -/
structure S3Store where
  bucket : String
  config : List (String × String)
deriving DecidableEq, Repr

/-- `_get_default_obstore_client` from `io.py`: the default store for a
bucket (the `lru_cache` only affects identity, not the value, so it is
modelled as plain construction). -/
def _get_default_obstore_client (bucket : String) : S3Store :=
  ⟨bucket, []⟩

/-- The obstore backend capability: `obs.get_range_async(store, key,
start, end).to_bytes()` modelled as a pure function of its arguments. -/
structure ObstoreEnv where
  get_range_async : S3Store → String → Nat → Nat → Bytes

/-- `send_range_obstore` from `io.py`: rebinds `client` to a default when
absent, then constructs a fresh `S3Store` with a fixed configuration and
fetches the range from it.  The rebound `client` is never used. -/
def send_range_obstore (env : ObstoreEnv) (bucket key : String) (start stop : Nat)
    (client : Option S3Store) : Bytes :=
  let _client := client.getD (_get_default_obstore_client bucket)
  env.get_range_async
    ⟨bucket, [("aws_default_region", "us-west-2"), ("aws_skip_signature", "True")]⟩
    key start stop

/-- A fixture IFD whose tags give an overview with the stated image and
tile dimensions, tile offsets and byte counts. -/
def mkIfd (iw ih tw th : Nat) (offs cnts : List Nat) : IFD :=
  ⟨6, 0, [("ImageWidth", .scalar iw), ("ImageHeight", .scalar ih),
          ("TileWidth", .scalar tw), ("TileHeight", .scalar th),
          ("TileOffsets", .array offs), ("TileByteCounts", .array cnts)]⟩

/-- A fixture header (little-endian classic TIFF). -/
def hdr : Header := ⟨.little, .tiff, 8⟩

/-- Fixture: a COG whose key holds the zoom-8 quadkey `00000000`
(decoding to the tile `(0, 0, 8)`) and which has four IFDs; the coarsest
(last) overview is a single 256 x 256 tile at bytes `[100, 150)`.  The
range source echoes the requested range. -/
def cog1 : Cog :=
  ⟨"bkt", "layer/00000000/cog.tif", hdr,
   [mkIfd 2048 2048 256 256 [] [],
    mkIfd 1024 1024 256 256 [] [],
    mkIfd 512 512 256 256 [] [],
    mkIfd 256 256 256 256 [100] [50]],
   fun s e => .ok [s, e]⟩

/-- Fixture: a COG under the zoom-1 quadkey `0` with a single 2 x 2
overview; tile `idx` lives at byte offset `10 * (idx + 1)` with byte
count 1, and the range source returns the requested start offset. -/
def cog2 : Cog :=
  ⟨"bkt", "b/0/c", hdr,
   [mkIfd 512 512 256 256 [10, 20, 30, 40] [1, 1, 1, 1]],
   fun s _ => .ok [s]⟩

/-- Fixture: as `cog2`, but the range source fails with
`RangeUnavailable` for any offset at or beyond 30 (so the row of tiles
`[30, 40]` cannot be fetched). -/
def cog6 : Cog :=
  ⟨"bkt", "b/0/c", hdr,
   [mkIfd 512 512 256 256 [10, 20, 30, 40] [1, 1, 1, 1]],
   fun s e => if 30 ≤ s then .error .rangeUnavailable else .ok [s, e]⟩

/-- Fixture: a COG under the zoom-1 quadkey `0` whose single overview has
a 1 x 1 tile grid. -/
def cog4 : Cog :=
  ⟨"bkt", "p/0/f", hdr,
   [mkIfd 256 256 256 256 [10] [5]],
   fun s e => .ok [s, e]⟩

/-- Fixture: a COG under the zoom-8 quadkey `30000000` (decoding to the
tile `(128, 128, 8)`) with four IFDs. -/
def cog5 : Cog :=
  ⟨"bkt", "s/30000000/t.tif", hdr,
   [mkIfd 2048 2048 256 256 [] [],
    mkIfd 1024 1024 256 256 [] [],
    mkIfd 512 512 256 256 [] [],
    mkIfd 256 256 256 256 [100] [50]],
   fun s e => .ok [s, e]⟩

/-- Fixture: a COG whose key has a single path segment (no `/`). -/
def cog10 : Cog :=
  ⟨"bkt", "nokey", hdr,
   [mkIfd 256 256 256 256 [10] [5]],
   fun s e => .ok [s, e]⟩

/-- A concrete admissible set-iteration order that enumerates the distinct
elements in reverse order of first appearance of the deduplicated list:
valid for `validSetOrder`, and a witness that the language-level contract
of `list(set(-))` does not promise ascending order. -/
def badSetOrder : List Int → List Int := fun l => l.dedup.reverse

/-- `gatherExcept` succeeds only with one result per argument. -/
theorem gatherExcept_ok_length {α : Type} :
    ∀ {l : List (Except Err α)} {as : List α}, gatherExcept l = .ok as → as.length = l.length := by
  intro l
  induction l with
  | nil =>
    intro as h
    simp only [gatherExcept] at h
    cases h
    rfl
  | cons x r ih =>
    intro as h
    cases x with
    | error e => simp only [gatherExcept] at h; cases h
    | ok a =>
      simp only [gatherExcept] at h
      cases hr : gatherExcept r with
      | error e => rw [hr] at h; cases h
      | ok as' =>
        rw [hr] at h
        cases h
        simp [ih hr]

/-- If `gatherExcept` over a mapped list succeeds, entry `i` of the result
is the successful value of `f` at entry `i` of the underlying list. -/
theorem gatherExcept_map_get {α β : Type} (f : β → Except Err α) :
    ∀ (l : List β) (as : List α), gatherExcept (l.map f) = .ok as →
      ∀ i (hi : i < l.length) (hi' : i < as.length),
        f (l.get ⟨i, hi⟩) = .ok (as.get ⟨i, hi'⟩) := by
  intro l
  induction l with
  | nil =>
    intro as h i hi hi'
    exact absurd hi (Nat.not_lt_zero i)
  | cons b r ih =>
    intro as h i hi hi'
    simp only [List.map] at h
    cases hfb : f b with
    | error e => rw [hfb] at h; simp only [gatherExcept] at h; cases h
    | ok a =>
      rw [hfb] at h
      simp only [gatherExcept] at h
      cases hr : gatherExcept (r.map f) with
      | error e => rw [hr] at h; cases h
      | ok as' =>
        rw [hr] at h
        cases h
        cases i with
        | zero => simpa using hfb
        | succ j =>
          have hj : j < r.length := by simpa using hi
          have hj' : j < as'.length := by simpa using hi'
          simpa using ih as' hr j hj hj'

/-- If any element of the list failed, `gatherExcept` fails. -/
theorem gatherExcept_error_of_mem {α : Type} :
    ∀ {l : List (Except Err α)} {x : Except Err α}, x ∈ l → exceptIsOk x = false →
      exceptIsOk (gatherExcept l) = false := by
  intro l
  induction l with
  | nil => intro x hx _; cases hx
  | cons y r ih =>
    intro x hx hfail
    cases y with
    | error e => simp [gatherExcept, exceptIsOk]
    | ok a =>
      rcases List.mem_cons.mp hx with rfl | hxr
      · simp [exceptIsOk] at hfail
      · have := ih hxr hfail
        cases hr : gatherExcept r with
        | error e => simp [gatherExcept, hr, exceptIsOk]
        | ok as => rw [hr] at this; simp [exceptIsOk] at this

theorem foldl_min_le_init : ∀ (r : List Int) (a : Int), r.foldl min a ≤ a := by
  intro r
  induction r with
  | nil => intro a; exact le_refl a
  | cons b r ih =>
    intro a
    calc (b :: r).foldl min a = r.foldl min (min a b) := rfl
    _ ≤ min a b := ih (min a b)
    _ ≤ a := min_le_left a b

theorem foldl_min_le_mem : ∀ (r : List Int) (a b : Int), b ∈ r → r.foldl min a ≤ b := by
  intro r
  induction r with
  | nil => intro a b hb; cases hb
  | cons c r ih =>
    intro a b hb
    rcases List.mem_cons.mp hb with rfl | hbr
    · calc r.foldl min (min a b) ≤ min a b := foldl_min_le_init r (min a b)
      _ ≤ b := min_le_right a b
    · exact ih (min a c) b hbr

theorem foldl_min_mem : ∀ (r : List Int) (a : Int), r.foldl min a = a ∨ r.foldl min a ∈ r := by
  intro r
  induction r with
  | nil => intro a; exact Or.inl rfl
  | cons b r ih =>
    intro a
    rcases ih (min a b) with h | h
    · rcases min_choice a b with hm | hm
      · exact Or.inl (by rw [show (b :: r).foldl min a = r.foldl min (min a b) from rfl, h, hm])
      · refine Or.inr (List.mem_cons.mpr (Or.inl ?_))
        rw [show (b :: r).foldl min a = r.foldl min (min a b) from rfl, h, hm]
    · exact Or.inr (List.mem_cons.mpr (Or.inr h))

/-- Characterisation of Python `min` on a non-empty list. -/
theorem pyMin_eq {l : List Int} {a : Int} (hmem : a ∈ l) (hlb : ∀ b ∈ l, a ≤ b) :
    pyMin l = a := by
  cases l with
  | nil => cases hmem
  | cons c r =>
    refine le_antisymm ?_ ?_
    · rcases List.mem_cons.mp hmem with rfl | har
      · exact foldl_min_le_init r a
      · exact foldl_min_le_mem r c a har
    · rcases foldl_min_mem r c with h | h
      · rw [show pyMin (c :: r) = r.foldl min c from rfl, h]
        exact hlb c (List.mem_cons_self c r)
      · exact hlb _ (List.mem_cons.mpr (Or.inr h))

theorem foldl_max_ge_init : ∀ (r : List Int) (a : Int), a ≤ r.foldl max a := by
  intro r
  induction r with
  | nil => intro a; exact le_refl a
  | cons b r ih =>
    intro a
    calc a ≤ max a b := le_max_left a b
    _ ≤ r.foldl max (max a b) := ih (max a b)
    _ = (b :: r).foldl max a := rfl

theorem foldl_max_ge_mem : ∀ (r : List Int) (a b : Int), b ∈ r → b ≤ r.foldl max a := by
  intro r
  induction r with
  | nil => intro a b hb; cases hb
  | cons c r ih =>
    intro a b hb
    rcases List.mem_cons.mp hb with rfl | hbr
    · calc b ≤ max a b := le_max_right a b
      _ ≤ r.foldl max (max a b) := foldl_max_ge_init r (max a b)
    · exact ih (max a c) b hbr

theorem foldl_max_mem : ∀ (r : List Int) (a : Int), r.foldl max a = a ∨ r.foldl max a ∈ r := by
  intro r
  induction r with
  | nil => intro a; exact Or.inl rfl
  | cons b r ih =>
    intro a
    rcases ih (max a b) with h | h
    · rcases max_choice a b with hm | hm
      · exact Or.inl (by rw [show (b :: r).foldl max a = r.foldl max (max a b) from rfl, h, hm])
      · refine Or.inr (List.mem_cons.mpr (Or.inl ?_))
        rw [show (b :: r).foldl max a = r.foldl max (max a b) from rfl, h, hm]
    · exact Or.inr (List.mem_cons.mpr (Or.inr h))

/-- Characterisation of Python `max` on a non-empty list. -/
theorem pyMax_eq {l : List Int} {a : Int} (hmem : a ∈ l) (hub : ∀ b ∈ l, b ≤ a) :
    pyMax l = a := by
  cases l with
  | nil => cases hmem
  | cons c r =>
    refine le_antisymm ?_ ?_
    · rcases foldl_max_mem r c with h | h
      · rw [show pyMax (c :: r) = r.foldl max c from rfl, h]
        exact hub c (List.mem_cons_self c r)
      · exact hub _ (List.mem_cons.mpr (Or.inr h))
    · rcases List.mem_cons.mp hmem with rfl | har
      · exact foldl_max_ge_init r a
      · exact foldl_max_ge_mem r c a har

/-- `childrenAt` at zoom `t.z + k`, with the zoom difference normalised. -/
theorem childrenAt_add (t : Tile) (k : Nat) :
    childrenAt t (t.z + k) =
      (List.range (2 ^ k)).flatMap
        (fun (j : Nat) => (List.range (2 ^ k)).map
          (fun (i : Nat) => ⟨t.x * (2 : Int) ^ k + (i : Int),
                             t.y * (2 : Int) ^ k + (j : Int), t.z + k⟩)) := by
  simp only [childrenAt, Nat.add_sub_cancel_left]

/-- The horizontal offsets of the children are exactly
`t.x * 2 ^ k + i - ox` for `i < 2 ^ k`. -/
theorem mem_children_map_x (t : Tile) (k : Nat) (ox a : Int) :
    a ∈ (childrenAt t (t.z + k)).map (fun c => c.x - ox) ↔
      ∃ i : Nat, i < 2 ^ k ∧ a = t.x * (2 : Int) ^ k + (i : Int) - ox := by
  rw [childrenAt_add]
  constructor
  · intro h
    rcases List.mem_map.mp h with ⟨c, hc, hca⟩
    rcases List.mem_flatMap.mp hc with ⟨j, _, hcj⟩
    rcases List.mem_map.mp hcj with ⟨i, hi, hic⟩
    refine ⟨i, List.mem_range.mp hi, ?_⟩
    rw [← hca, ← hic]
  · rintro ⟨i, hi, rfl⟩
    refine List.mem_map.mpr
      ⟨⟨t.x * (2 : Int) ^ k + (i : Int), t.y * (2 : Int) ^ k + ((0 : Nat) : Int), t.z + k⟩, ?_, rfl⟩
    refine List.mem_flatMap.mpr ⟨0, List.mem_range.mpr (by positivity), ?_⟩
    exact List.mem_map.mpr ⟨i, List.mem_range.mpr hi, rfl⟩

/-- The vertical offsets of the children are exactly
`t.y * 2 ^ k + j - oy` for `j < 2 ^ k`. -/
theorem mem_children_map_y (t : Tile) (k : Nat) (oy a : Int) :
    a ∈ (childrenAt t (t.z + k)).map (fun c => c.y - oy) ↔
      ∃ j : Nat, j < 2 ^ k ∧ a = t.y * (2 : Int) ^ k + (j : Int) - oy := by
  rw [childrenAt_add]
  constructor
  · intro h
    rcases List.mem_map.mp h with ⟨c, hc, hca⟩
    rcases List.mem_flatMap.mp hc with ⟨j, hj, hcj⟩
    rcases List.mem_map.mp hcj with ⟨i, _, hic⟩
    refine ⟨j, List.mem_range.mp hj, ?_⟩
    rw [← hca, ← hic]
  · rintro ⟨j, hj, rfl⟩
    refine List.mem_map.mpr
      ⟨⟨t.x * (2 : Int) ^ k + ((0 : Nat) : Int), t.y * (2 : Int) ^ k + (j : Int), t.z + k⟩, ?_, rfl⟩
    refine List.mem_flatMap.mpr ⟨j, List.mem_range.mpr hj, ?_⟩
    exact List.mem_map.mpr ⟨0, List.mem_range.mpr (by positivity), rfl⟩

/-- The minimum horizontal offset of the metatile children. -/
theorem pyMin_children_x (t : Tile) (k : Nat) (ox : Int) :
    pyMin ((childrenAt t (t.z + k)).map (fun c => c.x - ox)) =
      t.x * (2 : Int) ^ k - ox := by
  apply pyMin_eq
  · exact (mem_children_map_x t k ox _).mpr ⟨0, by positivity, by simp⟩
  · intro b hb
    rcases (mem_children_map_x t k ox b).mp hb with ⟨i, _, rfl⟩
    have hi0 : (0 : Int) ≤ (i : Int) := Int.natCast_nonneg i
    linarith

/-- The maximum horizontal offset of the metatile children. -/
theorem pyMax_children_x (t : Tile) (k : Nat) (ox : Int) :
    pyMax ((childrenAt t (t.z + k)).map (fun c => c.x - ox)) =
      t.x * (2 : Int) ^ k + ((2 : Int) ^ k - 1) - ox := by
  have hone : 1 ≤ 2 ^ k := Nat.one_le_two_pow
  have hcast : ((2 ^ k - 1 : Nat) : Int) = (2 : Int) ^ k - 1 := by
    rw [Nat.cast_sub hone]
    push_cast
    ring
  apply pyMax_eq
  · exact (mem_children_map_x t k ox _).mpr ⟨2 ^ k - 1, by omega, by rw [hcast]⟩
  · intro b hb
    rcases (mem_children_map_x t k ox b).mp hb with ⟨i, hi, rfl⟩
    have : (i : Int) < ((2 ^ k : Nat) : Int) := by exact_mod_cast hi
    have h2k : ((2 ^ k : Nat) : Int) = (2 : Int) ^ k := by push_cast; ring
    rw [h2k] at this
    linarith

/-- Any valid set-iteration order enumerates the `2 ^ k` distinct vertical
offsets of the metatile children exactly once. -/
theorem soys_length {so : List Int → List Int} (hso : validSetOrder so)
    (t : Tile) (k : Nat) (oy : Int) :
    (so ((childrenAt t (t.z + k)).map (fun c => c.y - oy))).length = 2 ^ k := by
  have hnd : (so ((childrenAt t (t.z + k)).map (fun c => c.y - oy))).Nodup :=
    (hso _).1
  have hmem : ∀ a, a ∈ so ((childrenAt t (t.z + k)).map (fun c => c.y - oy)) ↔
      a ∈ (childrenAt t (t.z + k)).map (fun c => c.y - oy) := (hso _).2
  have hndT : ((List.range (2 ^ k)).map
      (fun (j : Nat) => t.y * (2 : Int) ^ k + (j : Int) - oy)).Nodup := by
    refine List.Nodup.map ?_ (List.nodup_range _)
    intro a b hab
    simp only [] at hab
    have : (a : Int) = (b : Int) := by linarith
    exact_mod_cast this
  have hmemT : ∀ a : Int, a ∈ (List.range (2 ^ k)).map
      (fun (j : Nat) => t.y * (2 : Int) ^ k + (j : Int) - oy) ↔
      ∃ j : Nat, j < 2 ^ k ∧ a = t.y * (2 : Int) ^ k + (j : Int) - oy := by
    intro a
    constructor
    · intro h
      rcases List.mem_map.mp h with ⟨j, hj, hja⟩
      exact ⟨j, List.mem_range.mp hj, hja.symm⟩
    · rintro ⟨j, hj, rfl⟩
      exact List.mem_map.mpr ⟨j, List.mem_range.mpr hj, rfl⟩
  have hperm : List.Perm (so ((childrenAt t (t.z + k)).map (fun c => c.y - oy)))
      ((List.range (2 ^ k)).map (fun (j : Nat) => t.y * (2 : Int) ^ k + (j : Int) - oy)) := by
    refine (List.perm_ext_iff_of_nodup hnd hndT).mpr ?_
    intro a
    rw [hmem a, mem_children_map_y t k oy a, hmemT a]
  have := hperm.length_eq
  simpa using this

/-- A successful `metatilePlan` is built from a decoded parent tile: its
extrema and row offsets are those of the children grid. -/
theorem metatilePlan_ok_elim {cog : Cog} {tile : Tile} {size : Nat}
    {ov xmin xmax : Int} {ys : List Int}
    (h : metatilePlan cog tile size = .ok (ov, xmin, xmax, ys)) :
    ∃ parent : Tile,
      xmin = pyMin ((childrenAt tile (tile.z + intLog2 size)).map
        (fun c => c.x - (originTile parent (tile.z + intLog2 size)).x)) ∧
      xmax = pyMax ((childrenAt tile (tile.z + intLog2 size)).map
        (fun c => c.x - (originTile parent (tile.z + intLog2 size)).x)) ∧
      ys = (childrenAt tile (tile.z + intLog2 size)).map
        (fun c => c.y - (originTile parent (tile.z + intLog2 size)).y) := by
  unfold metatilePlan at h
  cases hqk : pySecondToLast (pySplit cog.key '/') with
  | none => rw [hqk] at h; cases h
  | some qk =>
    simp only [hqk] at h
    cases hp : quadkeyToTile qk with
    | none => simp only [hp] at h; cases h
    | some parent =>
      simp only [hp] at h
      by_cases hemp : (childrenAt tile (tile.z + intLog2 size)).isEmpty
      · rw [if_pos hemp] at h; cases h
      · rw [if_neg hemp] at h
        rw [Except.ok.injEq, Prod.mk.injEq, Prod.mk.injEq, Prod.mk.injEq] at h
        exact ⟨parent, h.2.1.symm, h.2.2.1.symm, h.2.2.2.symm⟩

/-- A successful `read_row` returns one payload per requested column. -/
theorem read_row_ok_length {y ov xmin xmax : Int} {cog : Cog} {r : List Bytes}
    (h : read_row y ov cog xmin xmax = .ok r) : r.length = (xmax - xmin).toNat + 1 := by
  unfold read_row at h
  have := gatherExcept_ok_length h
  simpa using this

/-- `badSetOrder` is an admissible model of `list(set(-))`. -/
theorem validSetOrder_bad : validSetOrder badSetOrder := by
  intro l
  constructor
  · simpa [badSetOrder, List.nodup_reverse] using List.nodup_dedup l
  · intro a
    simp [badSetOrder, List.mem_reverse, List.mem_dedup]

/-- C7: the tag type registry is the fixed table mapping each supported
TIFF field-type id to its descriptor, with byte widths Byte(1) 1,
ASCII(2) 1, Short(3) 2, Long(4) 4, Rational(5) 4, Undefined(7) 1,
Double(12) 8, Long8(16) 8, exactly as in `_TAG_TYPES` of `types.py`. -/
theorem tag_type_registry_table :
    _TAG_TYPES.lookup 1 = some ⟨"B", 1, 1⟩ ∧
    _TAG_TYPES.lookup 2 = some ⟨"c", 1, 2⟩ ∧
    _TAG_TYPES.lookup 3 = some ⟨"H", 2, 3⟩ ∧
    _TAG_TYPES.lookup 4 = some ⟨"L", 4, 4⟩ ∧
    _TAG_TYPES.lookup 5 = some ⟨"f", 4, 5⟩ ∧
    _TAG_TYPES.lookup 7 = some ⟨"B", 1, 7⟩ ∧
    _TAG_TYPES.lookup 12 = some ⟨"d", 8, 12⟩ ∧
    _TAG_TYPES.lookup 16 = some ⟨"Q", 8, 16⟩ :=
  ⟨rfl, rfl, rfl, rfl, rfl, rfl, rfl, rfl⟩

/-- C8: for every type id other than the eight supported ones
(1, 2, 3, 4, 5, 7, 12, 16), looking the id up in the tag type registry is
an error (`UnsupportedTagType`; a `KeyError` in Python terms) and never a
silent default descriptor. -/
theorem unknown_tag_type_is_error (id : Nat)
    (h1 : id ≠ 1) (h2 : id ≠ 2) (h3 : id ≠ 3) (h4 : id ≠ 4)
    (h5 : id ≠ 5) (h7 : id ≠ 7) (h12 : id ≠ 12) (h16 : id ≠ 16) :
    descriptor_for id = .error .unsupportedTagType ∧ _TAG_TYPES.lookup id = none := by
  have e1 : (id == 1) = false := beq_eq_false_iff_ne.mpr h1
  have e2 : (id == 2) = false := beq_eq_false_iff_ne.mpr h2
  have e3 : (id == 3) = false := beq_eq_false_iff_ne.mpr h3
  have e4 : (id == 4) = false := beq_eq_false_iff_ne.mpr h4
  have e5 : (id == 5) = false := beq_eq_false_iff_ne.mpr h5
  have e7 : (id == 7) = false := beq_eq_false_iff_ne.mpr h7
  have e12 : (id == 12) = false := beq_eq_false_iff_ne.mpr h12
  have e16 : (id == 16) = false := beq_eq_false_iff_ne.mpr h16
  have hl : _TAG_TYPES.lookup id = none := by
    simp [_TAG_TYPES, List.lookup, e1, e2, e3, e4, e5, e7, e12, e16]
  exact ⟨by simp [descriptor_for, hl], hl⟩

/-- Witness for C8 at the concrete unsupported id 6. -/
theorem unknown_tag_type_is_error_witness :
    descriptor_for 6 = .error .unsupportedTagType ∧ _TAG_TYPES.lookup 6 = none :=
  unknown_tag_type_is_error 6 (by decide) (by decide) (by decide) (by decide)
    (by decide) (by decide) (by decide) (by decide)

/-- C9: `send_range_obstore` is independent of its `client` argument: any
two client values (including none) produce the same result, which is the
range read against a freshly constructed store for the bucket with the
fixed region/skip-signature configuration — the supplied client is never
used. -/
theorem send_range_obstore_ignores_client (env : ObstoreEnv) (bucket key : String)
    (start stop : Nat) (c1 c2 : Option S3Store) :
    send_range_obstore env bucket key start stop c1 =
      send_range_obstore env bucket key start stop c2 ∧
    send_range_obstore env bucket key start stop c1 =
      env.get_range_async
        ⟨bucket, [("aws_default_region", "us-west-2"), ("aws_skip_signature", "True")]⟩
        key start stop :=
  ⟨rfl, rfl⟩

/-- C10: when the key has fewer than two `/`-separated segments, both
`request_xyz_tile` and `request_metatile` fail while extracting the
quadkey (the second-to-last path segment, a Python `IndexError`), for
every tile, size and set order; neither ever succeeds on such a key. -/
theorem short_key_requests_fail (so : List Int → List Int) (cog : Cog) (tile : Tile) (size : Nat)
    (h : (pySplit cog.key '/').length < 2) :
    request_xyz_tile cog tile = .error .indexError ∧
    request_metatile so cog tile size = .error .indexError := by
  have hnone : pySecondToLast (pySplit cog.key '/') = none := by
    unfold pySecondToLast
    rw [dif_neg (by omega)]
  constructor
  · simp only [request_xyz_tile, resolveXyz, hnone]
  · simp only [request_metatile, metatilePlan, hnone]

/-- Witness for C10: a key with a single segment (no `/`). -/
theorem short_key_requests_fail_witness :
    request_xyz_tile cog10 ⟨0, 0, 0⟩ = .error .indexError ∧
    request_metatile List.dedup cog10 ⟨0, 0, 0⟩ 2 = .error .indexError :=
  short_key_requests_fail List.dedup cog10 ⟨0, 0, 0⟩ 2 (by decide)

/-- C1: evaluation of the divergence.  For `cog1` (quadkey zoom 8, four
IFDs) and tile `(0, 0, 10)` with size 2, `metatile_zoom = 11`;
`request_metatile`'s plan resolves overview level
`metatile_zoom - parent.z - 1 = 2`, while the single-tile algorithm at
zoom 11 — the formula `parent.z + ifd_count - zoom - 1` the claim
asserts — yields 0.  The two formulas disagree, so `request_metatile`
does not resolve its overview level by the single-tile formula. -/
theorem metatile_overview_formula_diverges :
    metatilePlan cog1 ⟨0, 0, 10⟩ 2 = .ok (2, 0, 1, [0, 0, 1, 1]) ∧
    resolveXyz cog1 11 = .ok (0, ⟨0, 0, 11⟩) ∧
    ((8 : Int) + 4 - 11 - 1 = 0) ∧ ((2 : Int) ≠ 0) :=
  ⟨rfl, rfl, by decide, by decide⟩

/-- C3: evaluation of the missing range check.  For `cog1` (quadkey zoom
8, four IFDs) at requested zoom 12 the overview index
`8 + 4 - 12 - 1 = -1` falls outside `[0, 4)`, yet the resolution
succeeds and the request silently reads the coarsest IFD through
Python's negative list indexing instead of failing with
`ZoomOutOfRange`. -/
theorem resolve_no_zoom_range_check :
    resolveXyz cog1 12 = .ok (-1, ⟨0, 0, 12⟩) ∧
    ((-1 : Int) < 0 ∨ (4 : Int) ≤ -1) ∧
    request_xyz_tile cog1 ⟨0, 0, 12⟩ = .ok [100, 150] ∧
    request_xyz_tile cog1 ⟨0, 0, 12⟩ ≠ .error .zoomOutOfRange :=
  ⟨rfl, by decide, rfl, by decide⟩

/-- C5: for every COG whose key decodes to a parent tile and every
requested zoom in range, the single-tile resolution computes
`overview_index = parent.z + ifd_count - zoom - 1` and the origin tile at
the requested zoom sharing the parent's upper-left corner
(coordinates scaled by `2 ^ (zoom - parent.z)`). -/
theorem resolve_overview_level_formula (cog : Cog) (z : Nat) (qk : String) (parent : Tile)
    (hqk : pySecondToLast (pySplit cog.key '/') = some qk)
    (hparent : quadkeyToTile qk = some parent)
    (hlo : 0 ≤ (parent.z : Int) + (cog.ifds.length : Int) - (z : Int) - 1)
    (hhi : (parent.z : Int) + (cog.ifds.length : Int) - (z : Int) - 1 < (cog.ifds.length : Int)) :
    resolveXyz cog z = .ok ((parent.z : Int) + (cog.ifds.length : Int) - (z : Int) - 1,
      ⟨parent.x * (2 : Int) ^ (z - parent.z), parent.y * (2 : Int) ^ (z - parent.z), z⟩) := by
  have hpz : parent.z ≤ z := by omega
  simp only [resolveXyz, hqk, hparent, originTile, if_pos hpz]

/-- Witness for C5: `ifd_count = 4`, `parent.z = 8` (quadkey `30000000`):
zoom 11 resolves to overview 0 and zoom 8 to overview 3, with the
corresponding origins. -/
theorem resolve_overview_level_formula_witness :
    resolveXyz cog5 11 = .ok (0, ⟨1024, 1024, 11⟩) ∧
    resolveXyz cog5 8 = .ok (3, ⟨128, 128, 8⟩) := by
  have h1 := resolve_overview_level_formula cog5 11 "30000000" ⟨128, 128, 8⟩ rfl rfl
    (by decide) (by decide)
  have h2 := resolve_overview_level_formula cog5 8 "30000000" ⟨128, 128, 8⟩ rfl rfl
    (by decide) (by decide)
  exact ⟨h1, h2⟩

/-- C4: for every COG and tile, if the resolution succeeds, the chosen
overview IFD exists and the zero-based offsets `xoff`/`yoff` fall outside
that overview's tile grid (derived from its ImageWidth/ImageHeight/
TileWidth/TileHeight tags), then the single-tile request fails with
`TileOutOfBounds`. -/
theorem request_tile_out_of_bounds (cog : Cog) (tile : Tile) (ov : Int) (origin : Tile)
    (ifd : IFD) (iw ih tw th : Nat)
    (hres : resolveXyz cog tile.z = .ok (ov, origin))
    (hifd : pyListGet cog.ifds ov = some ifd)
    (hiw : getScalarTag ifd "ImageWidth" = .ok iw)
    (hih : getScalarTag ifd "ImageHeight" = .ok ih)
    (htw : getScalarTag ifd "TileWidth" = .ok tw)
    (hth : getScalarTag ifd "TileHeight" = .ok th)
    (htw0 : tw ≠ 0) (hth0 : th ≠ 0)
    (hout : tile.x - origin.x < 0 ∨ tile.y - origin.y < 0 ∨
      (ceilDiv iw tw : Int) ≤ tile.x - origin.x ∨ (ceilDiv ih th : Int) ≤ tile.y - origin.y) :
    request_xyz_tile cog tile = .error .tileOutOfBounds := by
  simp only [request_xyz_tile, hres, read_tile, hifd, hiw, hih, htw, hth]
  rw [if_neg (by exact not_or.mpr ⟨htw0, hth0⟩), if_pos hout]

/-- Witness for C4: a COG with a single 1 x 1 overview grid; the tile at
`xoff = 1` is outside the grid and the request fails with
`TileOutOfBounds`. -/
theorem request_tile_out_of_bounds_witness :
    request_xyz_tile cog4 ⟨1, 0, 1⟩ = .error .tileOutOfBounds :=
  request_tile_out_of_bounds cog4 ⟨1, 0, 1⟩ 0 ⟨0, 0, 1⟩ (mkIfd 256 256 256 256 [10] [5])
    256 256 256 256 rfl rfl rfl rfl rfl rfl (by decide) (by decide) (by decide)

/-- C6: if any single tile fetch inside a metatile request fails, the
whole `request_metatile` call fails and no partial 2-D structure is
returned (a failing tile fails its row's `read_row`, and the gather of
rows fails with it). -/
theorem metatile_fails_on_fetch_failure (so : List Int → List Int) (cog : Cog) (tile : Tile)
    (size : Nat) (ov xmin xmax : Int) (ys : List Int) (x y : Int) (e : Err)
    (hplan : metatilePlan cog tile size = .ok (ov, xmin, xmax, ys))
    (hy : y ∈ so ys) (hx1 : xmin ≤ x) (hx2 : x ≤ xmax)
    (hfail : readTileCore x y ov cog = .error e) :
    exceptIsOk (request_metatile so cog tile size) = false := by
  have hmem : readTileCore x y ov cog ∈
      (List.range ((xmax - xmin).toNat + 1)).map
        (fun (i : Nat) => readTileCore (xmin + (i : Int)) y ov cog) := by
    refine List.mem_map.mpr ⟨(x - xmin).toNat, List.mem_range.mpr (by omega), ?_⟩
    have hxeq : xmin + (((x - xmin).toNat : Nat) : Int) = x := by omega
    rw [hxeq]
  have hrow : exceptIsOk (read_row y ov cog xmin xmax) = false := by
    unfold read_row
    exact gatherExcept_error_of_mem hmem (by rw [hfail]; rfl)
  unfold request_metatile
  simp only [hplan]
  refine gatherExcept_error_of_mem ?_ hrow
  exact List.mem_map.mpr ⟨y, hy, rfl⟩

/-- Witness for C6: for `cog6` the range source fails on the byte range of
the second row's tiles, and the whole metatile request fails. -/
theorem metatile_fails_on_fetch_failure_witness :
    exceptIsOk (request_metatile badSetOrder cog6 ⟨0, 0, 1⟩ 2) = false :=
  metatile_fails_on_fetch_failure badSetOrder cog6 ⟨0, 0, 1⟩ 2 0 0 1 [0, 0, 1, 1] 0 1
    .rangeUnavailable rfl (by decide) (by decide) (by decide) rfl

/-- C2 (counterexample): the rows of a metatile result follow the
set-iteration order of the distinct row offsets, which the language does
not fix: under the admissible order `badSetOrder` the first row of the
assembled structure is the `yoff = 1` row, not the `yoff = 0` row, so the
rows are not in ascending `yoff` order for every admissible execution. -/
theorem metatile_rows_not_ascending_cex :
    validSetOrder badSetOrder ∧
    request_metatile badSetOrder cog2 ⟨0, 0, 1⟩ 2 = .ok [[[30], [40]], [[10], [20]]] ∧
    read_row 1 0 cog2 0 1 = .ok [[30], [40]] ∧
    read_row 0 0 cog2 0 1 = .ok [[10], [20]] ∧
    ([[30], [40]] : List (List Nat)) ≠ [[10], [20]] :=
  ⟨validSetOrder_bad, rfl, rfl, rfl, by decide⟩

/-- C2 (amended): for every valid set order and power-of-two size, a
successful `request_metatile` returns exactly `size` rows of `size`
columns each, and row `i` of the structure is exactly the `read_row`
result for the `i`-th distinct row offset in the set's iteration order —
assembly is by index, independent of fetch completion order, but the row
order is the set order, not necessarily ascending `yoff`. -/
theorem metatile_shape (so : List Int → List Int) (cog : Cog) (tile : Tile) (size : Nat)
    (ov xmin xmax : Int) (ys : List Int) (rows : List (List Bytes))
    (hso : validSetOrder so)
    (hpow : size = 2 ^ intLog2 size)
    (hplan : metatilePlan cog tile size = .ok (ov, xmin, xmax, ys))
    (hreq : request_metatile so cog tile size = .ok rows) :
    rows.length = size ∧
    (∀ r ∈ rows, r.length = size) ∧
    (∀ i (hi : i < rows.length) (hj : i < (so ys).length),
      read_row ((so ys).get ⟨i, hj⟩) ov cog xmin xmax = .ok (rows.get ⟨i, hi⟩)) := by
  obtain ⟨parent, hxmin, hxmax, hys⟩ := metatilePlan_ok_elim hplan
  unfold request_metatile at hreq
  simp only [hplan] at hreq
  have hlen : rows.length = (so ys).length := by
    have h := gatherExcept_ok_length hreq
    simpa using h
  have hsolen : (so ys).length = 2 ^ intLog2 size := by
    rw [hys]
    exact soys_length hso tile (intLog2 size) _
  have hrows : rows.length = size := by rw [hlen, hsolen, ← hpow]
  have hxdiff : xmax - xmin = (2 : Int) ^ intLog2 size - 1 := by
    rw [hxmin, hxmax, pyMin_children_x, pyMax_children_x]
    ring
  have h2k : ((2 ^ intLog2 size : Nat) : Int) = (2 : Int) ^ intLog2 size := by
    push_cast
    ring
  have hone : 1 ≤ 2 ^ intLog2 size := Nat.one_le_two_pow
  refine ⟨hrows, ?_, ?_⟩
  · intro r hr
    rcases List.mem_iff_get.mp hr with ⟨⟨i, hi⟩, hget⟩
    have hj : i < (so ys).length := by omega
    have hcorr := gatherExcept_map_get (fun y => read_row y ov cog xmin xmax)
      (so ys) rows hreq i hj hi
    have hrl := read_row_ok_length hcorr
    rw [← hget, hrl, hxdiff, ← h2k]
    omega
  · intro i hi hj
    exact gatherExcept_map_get (fun y => read_row y ov cog xmin xmax) (so ys) rows hreq i hj hi

/-- Witness for C2 (amended) at the concrete metatile of `cog2`: the
2 x 2 structure and one of its rows both have length 2. -/
theorem metatile_shape_witness :
    ([[[30], [40]], [[10], [20]]] : List (List Bytes)).length = 2 ∧
    ([[30], [40]] : List Bytes).length = 2 := by
  have h := metatile_shape badSetOrder cog2 ⟨0, 0, 1⟩ 2 0 0 1 [0, 0, 1, 1]
    [[[30], [40]], [[10], [20]]] validSetOrder_bad (by decide) rfl rfl
  exact ⟨h.1, h.2.1 [[30], [40]] (by decide)⟩
